import Mathlib

/-!
Verification of the workflow execution core of the autonomous-agent template
(`framework/core/runner.ts`): the variable interpolation engine, the plugin
registry with its duplicate-tool and missing-tool validation, and the step
executor with its session flag, prompt-size management and fail-fast error
policy.  JavaScript values are embedded as a JSON-like inductive type; the
executor is a pure function from an environment (models of the external
collaborators: the AI-agent service, the JSON parser builtin, the OS clock
and the temp directory) and a workflow to a trace of observable events plus
a final context and outcome.
-/

namespace AgentRunner

/-- Model of the JavaScript values that flow through the runner: workflow
arguments, tool results parsed from JSON, and the accumulated context.
Objects are association lists in insertion order, as JS objects preserve
insertion order for string keys. -/
inductive JValue where
  | vNull
  | vBool (b : Bool)
  | vNum (n : Int)
  | vStr (s : String)
  | vArr (elems : List JValue)
  | vObj (fields : List (String × JValue))
  deriving Repr

/-- JavaScript truthiness of a value (`if (x)`). -/
def jsTruthy : JValue → Bool
  | .vNull => false
  | .vBool b => b
  | .vNum n => n != 0
  | .vStr s => s != ""
  | .vArr _ => true
  | .vObj _ => true

/-- `typeof v === "object"` in JavaScript: true for `null`, arrays and
plain objects. -/
def isJsObject : JValue → Bool
  | .vNull => true
  | .vArr _ => true
  | .vObj _ => true
  | _ => false

/-- Parse a non-empty all-digit string as a natural number (a structural
stand-in for `String.toNat?`). -/
def strToNat? (s : String) : Option Nat :=
  if !s.data.isEmpty && s.data.all Char.isDigit then
    some (s.data.foldl (fun a c => a * 10 + (c.toNat - 48)) 0)
  else none

/-- The string key `k` read as a canonical array index: the digits of a
natural number with no leading zero, as JavaScript array index keys are. -/
def arrayIndex? (k : String) : Option Nat :=
  match strToNat? k with
  | some i => if Nat.repr i == k then some i else none
  | none => none

/-- Property access `v?.[key]` as the interpolation loop performs it:
object fields by name, array elements by canonical numeric index (plus the
`length` property), string characters by index (plus `length`); every other
access yields `undefined`, modelled as `none`. -/
def jprop : JValue → String → Option JValue
  | .vObj fs, k => (fs.find? (fun p => p.1 == k)).map (fun p => p.2)
  | .vArr xs, k =>
      if k == "length" then some (.vNum xs.length)
      else
        match arrayIndex? k with
        | some i => xs.get? i
        | none => none
  | .vStr s, k =>
      if k == "length" then some (.vNum s.length)
      else
        match arrayIndex? k with
        | some i => (s.data.get? i).map (fun c => .vStr (String.singleton c))
        | none => none
  | _, _ => none

/-- Auxiliary recursion of `splitOnDot`: `acc` holds the characters of the
current segment in reverse. -/
def splitOnDotAux : List Char → List Char → List String
  | [], acc => [String.mk acc.reverse]
  | '.' :: cs, acc => String.mk acc.reverse :: splitOnDotAux cs []
  | c :: cs, acc => splitOnDotAux cs (c :: acc)

/-- `path.split(".")` of JavaScript: split on every dot, keeping empty
segments (so `"a..b"` gives `["a", "", "b"]` and `""` gives `[""]`). -/
def splitOnDot (p : String) : List String := splitOnDotAux p.data []

/-- Walk a dotted path through the context, starting at the whole context
value, exactly as the loop `for (const key of keys) value = value?.[key]`
does (`none` models `undefined`). -/
def resolvePath (ctx : JValue) (p : String) : Option JValue :=
  (splitOnDot p).foldl (fun v k => v.bind (fun x => jprop x k)) (some ctx)

/-- Two-character hexadecimal rendering of a byte, for JSON string escapes. -/
def hex2 (n : Nat) : String :=
  let dig := fun (d : Nat) => String.singleton (Nat.digitChar d)
  dig (n / 16 % 16) ++ dig (n % 16)

/-- JSON escaping of a single character as `JSON.stringify` performs it. -/
def jsonEscapeChar (c : Char) : String :=
  if c = '"' then "\\\""
  else if c = '\\' then "\\\\"
  else if c = '\n' then "\\n"
  else if c = '\r' then "\\r"
  else if c = '\t' then "\\t"
  else if c.toNat < 32 then "\\u00" ++ hex2 c.toNat
  else String.singleton c

/-- A JSON string literal for `s`. -/
def jsonQuote (s : String) : String :=
  "\"" ++ String.join (s.data.map jsonEscapeChar) ++ "\""

/-- `n` spaces, the indentation unit of `JSON.stringify(v, null, 2)`. -/
def indentStr (n : Nat) : String := String.mk (List.replicate n ' ')

/-- Pretty-printed JSON rendering with two-space indentation, the model of
`JSON.stringify(value, null, 2)` on the JSON-like values of the runner. -/
def jsonStringify (ind : Nat) : JValue → String
  | .vNull => "null"
  | .vBool b => if b then "true" else "false"
  | .vNum n => toString n
  | .vStr s => jsonQuote s
  | .vArr [] => "[]"
  | .vArr (x :: xs) =>
      let items := (x :: xs).attach.map
        (fun e => indentStr (ind + 2) ++ jsonStringify (ind + 2) e.1)
      "[\n" ++ String.intercalate ",\n" items ++ "\n" ++ indentStr ind ++ "]"
  | .vObj [] => "\x7b\x7d"
  | .vObj (f :: fs) =>
      let items := (f :: fs).attach.map
        (fun e => indentStr (ind + 2) ++ jsonQuote e.1.1 ++ ": " ++ jsonStringify (ind + 2) e.1.2)
      "\x7b\n" ++ String.intercalate ",\n" items ++ "\n" ++ indentStr ind ++ "\x7d"
termination_by v => sizeOf v
decreasing_by
  · have h := List.sizeOf_lt_of_mem e.2
    simp only [JValue.vArr.sizeOf_spec]
    omega
  · have h1 := List.sizeOf_lt_of_mem e.2
    have h2 : sizeOf e.1.2 < sizeOf e.1 := by
      obtain ⟨a, b⟩ := e.1
      simp only [Prod.mk.sizeOf_spec]
      omega
    simp only [JValue.vObj.sizeOf_spec]
    omega

/-- The replacement string for one resolved placeholder: `undefined` becomes
the empty string, structured values (`typeof === "object"`, including
`null`) are pretty-printed, scalars go through `String(value)`. -/
def renderPath (ctx : JValue) (p : String) : String :=
  match resolvePath ctx p with
  | none => ""
  | some (.vStr s) => s
  | some (.vBool b) => if b then "true" else "false"
  | some (.vNum n) => toString n
  | some v => jsonStringify 0 v

/-- `\w` of the placeholder regular expression: ASCII letters, digits and
underscore. -/
def isWordChar (c : Char) : Bool := c.isAlpha || c.isDigit || c = '_'

/-- A character the capture group `[\w\.]+` accepts. -/
def isPathChar (c : Char) : Bool := isWordChar c || c = '.'

/-- `\s` of the placeholder regular expression (ASCII whitespace). -/
def isJsSpace (c : Char) : Bool :=
  c = ' ' || c = '\t' || c = '\n' || c = '\r' || c = '\x0b' || c = '\x0c'

/-- Try to match the placeholder pattern of the interpolator,
two opening braces, optional whitespace, a non-empty run of word or dot
characters (the captured path), optional whitespace, two closing braces,
at the head of the character list; on success return the captured path and
the remaining characters.  Because the three character classes involved are
pairwise disjoint and disjoint from the closing brace, greedy maximal munch
is exactly the regular-expression semantics. -/
def matchPlaceholder : List Char → Option (String × List Char)
  | '{' :: '{' :: rest =>
      let s1 := rest.dropWhile isJsSpace
      let pathCs := s1.takeWhile isPathChar
      let s2 := s1.dropWhile isPathChar
      if pathCs.isEmpty then none
      else
        match s2.dropWhile isJsSpace with
        | '}' :: '}' :: r => some (String.mk pathCs, r)
        | _ => none
  | _ => none

/-- Scan the template left to right, replacing each placeholder match and
copying every other character, as `String.replace` with a global regex
does.  `fuel` is a step bound; every recursive call consumes at least one
character, so any `fuel` at least the length of the list makes the
function total with the intended meaning. -/
def interpolateAux (ctx : JValue) : Nat → List Char → List Char
  | _, [] => []
  | 0, l => l
  | fuel + 1, c :: cs =>
      match matchPlaceholder (c :: cs) with
      | some (p, rest) => (renderPath ctx p).data ++ interpolateAux ctx fuel rest
      | none => c :: interpolateAux ctx fuel cs

/-- The interpolation engine of the runner: replace every
`\x7b\x7b path \x7d\x7d` placeholder in `text` by the rendering of the
dotted path resolved against `ctx`. -/
def interpolate (text : String) (ctx : JValue) : String :=
  String.mk (interpolateAux ctx text.data.length text.data)

/-- The two step kinds the executor dispatches on. -/
inductive StepType where
  | ai_agent
  | tool
  deriving Repr, DecidableEq

/-- One workflow step as loaded from the workflow file.  `stepIf` is the
step's optional `if` field (an interpolation template); `tool` is required
only for tool steps; `args` is the optional argument mapping. -/
structure Step where
  id : String
  type : StepType
  tool : Option String := none
  args : Option (List (String × JValue)) := none
  stepIf : Option String := none
  deriving Repr

/-- A workflow: an optional name and an ordered list of steps. -/
structure Workflow where
  name : Option String := none
  steps : List Step
  deriving Repr

/-- One textual content segment of a tool result (`\x7btype: "text", text\x7d`). -/
structure ToolContent where
  text : String
  deriving Repr

/-- The result a plugin's `handleToolCall` resolves with: a list of content
segments and an error flag the executor never inspects. -/
structure CallToolResult where
  content : List ToolContent
  isError : Bool := false
  deriving Repr

/-- A registered plugin, at the boundary the core depends on: its name, the
names of the tools its `registerTools()` declares, the outcome of its
`init(config)` call (which may reject), and its `handleToolCall` behaviour,
a function from tool name and interpolated arguments to either a rejection
(modelled as an error message) or a `CallToolResult`. -/
structure Plugin where
  name : String
  toolNames : List String
  init : Except String Unit
  handle : String → List (String × JValue) → Except String CallToolResult

/-- `Runner.registerPlugin`: await the plugin's `init` (propagating its
rejection), then append the plugin to the plugin list.  No duplicate-tool
check happens here; that check lives in `validateTools`. -/
def registerPlugin (plugins : List Plugin) (p : Plugin) : Except String (List Plugin) :=
  match p.init with
  | .error e => .error e
  | .ok _ => .ok (plugins ++ [p])

/-- The duplicate-tool error message of `validateTools`. -/
def dupMsg (t existingPlugin newPlugin : String) : String :=
  "Duplicate tool name detected: \"" ++ t ++ "\" is provided by both \"" ++
    existingPlugin ++ "\" and \"" ++ newPlugin ++ "\" plugins"

/-- Fold one plugin's tool names into the `availableTools` map
(tool name to plugin name, in insertion order), failing on the first name
already present, as the inner loop of `validateTools` does. -/
def addPluginTools (pname : String) (acc : List (String × String)) :
    List String → Except String (List (String × String))
  | [] => .ok acc
  | t :: ts =>
      match acc.find? (fun q => q.1 == t) with
      | some entry => .error (dupMsg t entry.2 pname)
      | none => addPluginTools pname (acc ++ [(t, pname)]) ts

/-- Auxiliary recursion of `buildAvailableTools` over the plugin list. -/
def buildAvailableToolsFrom (acc : List (String × String)) :
    List Plugin → Except String (List (String × String))
  | [] => .ok acc
  | p :: ps =>
      match addPluginTools p.name acc p.toolNames with
      | .error e => .error e
      | .ok acc2 => buildAvailableToolsFrom acc2 ps

/-- The first phase of `validateTools`: build the map of all available
tools across registered plugins, throwing a duplicate-tool error on the
first collision. -/
def buildAvailableTools (plugins : List Plugin) : Except String (List (String × String)) :=
  buildAvailableToolsFrom [] plugins

/-- The missing-tool scan of `validateTools`: every step of type `tool`
whose `tool` field is truthy (present and non-empty) and not in the
available map contributes its tool name, in step order, duplicates kept. -/
def missingToolsOf (avail : List (String × String)) (steps : List Step) : List String :=
  steps.filterMap (fun s =>
    match s.type, s.tool with
    | .tool, some t =>
        if t != "" && (avail.find? (fun q => q.1 == t)).isNone then some t else none
    | _, _ => none)

/-- The missing-tool error message of `validateTools`, listing every
missing name and the set of available names. -/
def missingMsg (missing : List String) (avail : List (String × String)) : String :=
  "Workflow references tools that are not available: " ++
    String.intercalate ", " missing ++ "\n" ++
    "Available tools: " ++ String.intercalate ", " (avail.map (fun q => q.1)) ++ "\n" ++
    "Make sure the required plugins are registered in index.ts"

/-- `Runner.validateTools`: build the available-tool map (failing on
duplicates), then fail if any workflow step references a missing tool. -/
def validateTools (plugins : List Plugin) (wf : Workflow) : Except String Unit :=
  match buildAvailableTools plugins with
  | .error e => .error e
  | .ok avail =>
      let missing := missingToolsOf avail wf.steps
      if missing.isEmpty then .ok () else .error (missingMsg missing avail)

/-- The invocation record handed to the AI-agent external collaborator
(`runAgent`): the submitted prompt, the resolved working directory, and the
"continue previous session" directive. -/
structure AgentCall where
  prompt : String
  workingDirectory : String
  continuePreviousSession : Bool
  deriving Repr

/-- The final text an AI-agent invocation resolves with. -/
structure AgentResult where
  output : String
  deriving Repr

/-- The observable events of a run, in order: step lifecycle transitions,
file writes, and the calls made to the two kinds of external collaborator. -/
inductive Event where
  | stepStarted (id : String)
  | stepSkipped (id : String)
  | fileWritten (path : String) (contents : String)
  | agentCalled (id : String) (call : AgentCall)
  | toolCalled (id : String) (tool : String) (args : List (String × JValue))
  | stepCompleted (id : String)
  | stepFailed (id : String) (msg : String)
  deriving Repr

/-- The run environment: deterministic models of the external collaborators
the executor awaits.  `agent` is the AI-agent service behind `runAgent`
(which either resolves with a result or rejects); `jsonParse` is the
JavaScript `JSON.parse` builtin (`some` on parse success); `tmpdir` is
`os.tmpdir()`; `cwd` is `process.cwd()`; `clock` gives the `Date.now()`
value observed while dispatching the step with the given id. -/
structure RunEnv where
  agent : AgentCall → Except String AgentResult
  jsonParse : String → Option JValue
  tmpdir : String
  cwd : String
  clock : String → Nat

/-- The executor's mutable state across steps: the accumulated context and
the session flag `isFirstAiAgentStep`. -/
structure LoopState where
  context : List (String × JValue)
  isFirstAiAgentStep : Bool
  deriving Repr

/-- `context[step.id] = v`: JavaScript property assignment on the context
object, replacing an existing entry in place or appending a new one. -/
def ctxSet (ctx : List (String × JValue)) (k : String) (v : JValue) :
    List (String × JValue) :=
  if ctx.any (fun kv => kv.1 == k) then
    ctx.map (fun kv => if kv.1 == k then (k, v) else kv)
  else ctx ++ [(k, v)]

/-- Interpolate a step's argument mapping: string values are interpolated
against the context, non-string values pass through unchanged; an absent
mapping yields the empty record. -/
def interpolateArgs (ctx : List (String × JValue)) :
    Option (List (String × JValue)) → List (String × JValue)
  | none => []
  | some l =>
      l.map (fun kv =>
        match kv.2 with
        | .vStr s => (kv.1, .vStr (interpolate s (.vObj ctx)))
        | v => (kv.1, v))

/-- Look up one key of an interpolated argument record (`agentArgs.prompt`). -/
def argValue (args : List (String × JValue)) (k : String) : Option JValue :=
  (args.find? (fun kv => kv.1 == k)).map (fun kv => kv.2)

/-- The JavaScript pattern `(x || default)` where the result is then used
as a string (passed to `substring` or `path.resolve`): an absent or falsy
value yields the default, a truthy string yields itself, and a truthy
non-string value makes the subsequent string operation throw a `TypeError`
(caught by the step's try block). -/
def jsStringOrDefault : Option JValue → String → Except String String
  | none, d => .ok d
  | some v, d =>
      if jsTruthy v then
        match v with
        | .vStr s => .ok s
        | _ => .error "TypeError: value is not a string"
      else .ok d

/-- `path.resolve(cwd, p)` restricted to the shapes the runner produces: an
absolute path wins, `.` resolves to the current directory, and a relative
path is joined onto it (no `..` normalization, which the claims never
exercise). -/
def pathResolve (cwd p : String) : String :=
  if p = "." then cwd
  else
    match p.data with
    | '/' :: _ => p
    | _ => cwd ++ "/" ++ p

/-- `fullPrompt.substring(0, n)`: the first `n` characters. -/
def strTake (s : String) (n : Nat) : String := String.mk (s.data.take n)

/-- The fixed prompt budget: 2000 tokens at roughly 4 characters per token. -/
def MAX_CHARS : Nat := 2000 * 4

/-- The temp file the full prompt of an AI-agent step is persisted to:
`os.tmpdir()/prompt_<stepId>_<Date.now()>.txt`. -/
def promptFilePath (env : RunEnv) (id : String) : String :=
  env.tmpdir ++ "/prompt_" ++ id ++ "_" ++ toString (env.clock id) ++ ".txt"

/-- The fixed truncation notice appended to an over-budget prompt, naming
the path of the persisted full-prompt file. -/
def truncationNotice (file : String) : String :=
  "\n\n[Note: The full prompt was truncated. I have saved the complete details to the file \x27" ++
    file ++ "\x27 (outside the workspace). You can read it if needed, but it is large.]"

/-- The prompt actually submitted to the AI agent: the budget-sized prefix,
with the truncation notice appended exactly when the full prompt exceeds
the budget. -/
def truncatePrompt (full : String) (file : String) : String :=
  let t := strTake full MAX_CHARS
  if full.length > MAX_CHARS then t ++ truncationNotice file else t

/-- The single output string extracted from a tool result: the `text` of
every content segment, joined with newlines (`content.map(c => c.text).join("\n")`). -/
def toolOutputText (r : CallToolResult) : String :=
  String.intercalate "\n" (r.content.map (fun c => c.text))

/-- The value stored in the context for a tool step: the joined output
text parsed as JSON when parsing succeeds, the raw string otherwise. -/
def toolOutputData (env : RunEnv) (r : CallToolResult) : JValue :=
  match env.jsonParse (toolOutputText r) with
  | some v => v
  | none => .vStr (toolOutputText r)

/-- The skip decision of the executor: a step is skipped exactly when its
`if` field is truthy (present and non-empty, since `if (step.if)` guards
the check) and interpolating it yields the empty string or the literal
string `"false"`. -/
def shouldSkip (ctx : List (String × JValue)) (step : Step) : Bool :=
  match step.stepIf with
  | none => false
  | some c =>
      if c = "" then false
      else
        let condition := interpolate c (.vObj ctx)
        condition == "" || condition == "false"

/-- The invocation record an AI-agent step hands to `runAgent`: the
truncated prompt, the resolved working directory, and the negation of the
session flag as the continuation directive. -/
def agentCallOf (env : RunEnv) (st : LoopState) (step : Step) (fullPrompt wd : String) :
    AgentCall :=
  ⟨truncatePrompt fullPrompt (promptFilePath env step.id), pathResolve env.cwd wd,
    !st.isFirstAiAgentStep⟩

/-- The events an AI-agent dispatch emits up to and including the agent
call: the full prompt is written to the temp file, then the agent is
invoked. -/
def agentEvents (env : RunEnv) (st : LoopState) (step : Step) (fullPrompt wd : String) :
    List Event :=
  [Event.fileWritten (promptFilePath env step.id) fullPrompt,
   Event.agentCalled step.id (agentCallOf env st step fullPrompt wd)]

/-- The dispatch of one non-skipped step (the body of the executor's try
block): either an error (the events emitted before the throw, plus the
error message) or success (the events plus the updated state). -/
def dispatch (env : RunEnv) (plugins : List Plugin) (st : LoopState) (step : Step) :
    Except (List Event × String) (List Event × LoopState) :=
  match step.type with
  | .ai_agent =>
      match jsStringOrDefault (argValue (interpolateArgs st.context step.args) "prompt") "" with
      | .error e => .error ([], e)
      | .ok fullPrompt =>
          match jsStringOrDefault
              (argValue (interpolateArgs st.context step.args) "working_dir") "." with
          | .error e => .error ([], e)
          | .ok wd =>
              match env.agent (agentCallOf env st step fullPrompt wd) with
              | .error e => .error (agentEvents env st step fullPrompt wd, e)
              | .ok result =>
                  .ok (agentEvents env st step fullPrompt wd,
                    ⟨ctxSet st.context step.id (.vObj [("output", .vStr result.output)]),
                      false⟩)
  | .tool =>
      match step.tool with
      | none => .error ([], "Tool name missing")
      | some t =>
          if t = "" then .error ([], "Tool name missing")
          else
            match plugins.find? (fun p => p.toolNames.contains t) with
            | none => .error ([], "Plugin for tool " ++ t ++ " not found")
            | some plugin =>
                match plugin.handle t (interpolateArgs st.context step.args) with
                | .error e =>
                    .error ([Event.toolCalled step.id t (interpolateArgs st.context step.args)], e)
                | .ok r =>
                    .ok ([Event.toolCalled step.id t (interpolateArgs st.context step.args)],
                      ⟨ctxSet st.context step.id (.vObj [("output", toolOutputData env r)]),
                        st.isFirstAiAgentStep⟩)

/-- Execute one step: log its start, check the skip condition, then run the
dispatch inside the try boundary.  The boolean is true exactly when the
step failed and the process exits with status 1. -/
def execStep (env : RunEnv) (plugins : List Plugin) (st : LoopState) (step : Step) :
    List Event × LoopState × Bool :=
  if shouldSkip st.context step then
    ([.stepStarted step.id, .stepSkipped step.id], st, false)
  else
    match dispatch env plugins st step with
    | .ok (evs, st2) =>
        ([Event.stepStarted step.id] ++ evs ++ [Event.stepCompleted step.id], st2, false)
    | .error (evs, msg) =>
        ([Event.stepStarted step.id] ++ evs ++ [Event.stepFailed step.id msg], st, true)

/-- The executor's step loop: run steps in declared order, stopping
immediately (with the state as it stands, nothing rolled back) when a step
fails. -/
def runSteps (env : RunEnv) (plugins : List Plugin) :
    LoopState → List Step → List Event × LoopState × Bool
  | st, [] => ([], st, false)
  | st, s :: rest =>
      let r := execStep env plugins st s
      if r.2.2 then r
      else
        let r2 := runSteps env plugins r.2.1 rest
        (r.1 ++ r2.1, r2.2.1, r2.2.2)

/-- How a whole run ends: all steps visited, a step failure followed by
`process.exit(1)`, or a validation error thrown before the loop (which the
caller's catch turns into a non-zero exit as well). -/
inductive RunOutcome where
  | completed
  | exitedNonZero
  | validationFailed (msg : String)
  deriving Repr

/-- Everything observable about one run of `runWorkflow`: the ordered event
trace, the context at the end (or at the moment of termination), and the
outcome. -/
structure RunReport where
  events : List Event
  finalContext : List (String × JValue)
  outcome : RunOutcome
  deriving Repr

/-- The state at the start of the loop: empty context, session flag set. -/
def initialState : LoopState := ⟨[], true⟩

/-- `Runner.runWorkflow` on an already-loaded workflow: validate the tools
once, then run the steps. -/
def runWorkflow (env : RunEnv) (plugins : List Plugin) (wf : Workflow) : RunReport :=
  match validateTools plugins wf with
  | .error e => ⟨[], [], .validationFailed e⟩
  | .ok _ =>
      let r := runSteps env plugins initialState wf.steps
      ⟨r.1, r.2.1.context, if r.2.2 then .exitedNonZero else .completed⟩

/-- The "continue previous session" directives passed to the AI-agent
collaborator over a trace, in call order. -/
def agentDirectives : List Event → List Bool
  | [] => []
  | .agentCalled _ c :: evs => c.continuePreviousSession :: agentDirectives evs
  | _ :: evs => agentDirectives evs

/-- `false` followed by `n - 1` copies of `true`: the shape the session
directives of one run must have. -/
def falseThenTrues : Nat → List Bool
  | 0 => []
  | n + 1 => false :: List.replicate n true

/-- A non-empty dotted path made of word characters and dots: exactly the
strings the placeholder capture group `[\w\.]+` can produce. -/
def isPathString (p : String) : Bool := !p.data.isEmpty && p.data.all isPathChar

/-- `file` lies inside directory `dir`: the path starts with `dir/`. -/
def pathIsInside (dir file : String) : Bool :=
  (dir ++ "/").data.isPrefixOf file.data

/-! Concrete fixtures for the closed runs below. -/

/-- A simple environment: the agent always replies `"ok"`, JSON parsing
always fails (raw strings kept), fixed temp dir, cwd and clock. -/
def envPure : RunEnv :=
  ⟨fun _ => .ok ⟨"ok"⟩, fun _ => none, "/tmp", "/cwd", fun _ => 0⟩

/-- An environment whose `JSON.parse` model parses exactly the string
`"42"` (to the number 42). -/
def envParse42 : RunEnv :=
  ⟨fun _ => .ok ⟨"ok"⟩, fun s => if s == "42" then some (.vNum 42) else none,
    "/tmp", "/cwd", fun _ => 0⟩

/-- An environment for the prompt-file run: the agent replies `"done"`,
the OS temp dir is `/tmp`. -/
def envTmp : RunEnv :=
  ⟨fun _ => .ok ⟨"done"⟩, fun _ => none, "/tmp", "/root", fun _ => 0⟩

/-- A plugin providing tool `t0`, always answering `"done"`. -/
def pluginT0 : Plugin := ⟨"p0", ["t0"], .ok (), fun _ _ => .ok ⟨[⟨"done"⟩], false⟩⟩

/-- A plugin providing `num_tool`, answering the JSON text `"42"`. -/
def pluginNum : Plugin := ⟨"pnum", ["num_tool"], .ok (), fun _ _ => .ok ⟨[⟨"42"⟩], false⟩⟩

/-- A plugin providing `flag_tool`, resolving successfully but with the
`isError` flag set. -/
def pluginFlag : Plugin :=
  ⟨"pflag", ["flag_tool"], .ok (), fun _ _ => .ok ⟨[⟨"went wrong"⟩], true⟩⟩

/-- A plugin providing `boom_tool` whose handler always rejects. -/
def pluginBoom : Plugin := ⟨"pboom", ["boom_tool"], .ok (), fun _ _ => .error "boom"⟩

/-- Two plugins that both declare a tool named `x`. -/
def pluginAlpha : Plugin := ⟨"alpha", ["x"], .ok (), fun _ _ => .ok ⟨[⟨"a"⟩], false⟩⟩

/-- See `pluginAlpha`. -/
def pluginBeta : Plugin := ⟨"beta", ["x"], .ok (), fun _ _ => .ok ⟨[⟨"b"⟩], false⟩⟩

/-- A tool step calling `t0`. -/
def stepGood : Step := ⟨"g", .tool, some "t0", none, none⟩

/-- A tool step calling the rejecting `boom_tool`. -/
def stepBoom : Step := ⟨"b", .tool, some "boom_tool", none, none⟩

/-- A tool step after the failing one, which must never run. -/
def stepAfter : Step := ⟨"after", .tool, some "t0", none, none⟩

/-- A workflow whose middle step fails. -/
def wfFailMid : Workflow := ⟨none, [stepGood, stepBoom, stepAfter]⟩

/-- A workflow referencing a tool no plugin provides. -/
def wfMissing : Workflow :=
  ⟨none, [stepGood, ⟨"m", .tool, some "missing_tool", none, none⟩]⟩

/-- Three consecutive AI-agent steps. -/
def stepsAgent3 : List Step :=
  [⟨"a1", .ai_agent, none, none, none⟩, ⟨"a2", .ai_agent, none, none, none⟩,
   ⟨"a3", .ai_agent, none, none, none⟩]

/-- A tool step guarded by an `if` field that is the empty string. -/
def stepEmptyIf : Step := ⟨"s", .tool, some "t0", none, some ""⟩

/-- A context in which step `B` has an entry whose `output` is a plain
string, so that `B.output.has_issues` is absent. -/
def ctxB : List (String × JValue) := [("B", .vObj [("output", .vStr "report")])]

/-- A tool step guarded by a condition referencing the absent path
`B.output.has_issues`. -/
def stepCondC : Step :=
  ⟨"C", .tool, some "t0", none, some "\x7b\x7bB.output.has_issues\x7d\x7d"⟩

/-- The loop state holding `ctxB` after some earlier steps. -/
def stCtxB : LoopState := ⟨ctxB, true⟩

/-- An AI-agent step whose `working_dir` is the OS temp directory itself. -/
def stepTmpWorkdir : Step :=
  ⟨"A", .ai_agent, none,
    some [("prompt", .vStr "hello"), ("working_dir", .vStr "/tmp")], none⟩

/-- The one-step workflow around `stepTmpWorkdir`. -/
def wfTmpWorkdir : Workflow := ⟨none, [stepTmpWorkdir]⟩

/-- An AI-agent step with a plain prompt. -/
def stepHello : Step := ⟨"A", .ai_agent, none, some [("prompt", .vStr "hello")], none⟩

/-- A tool step calling `num_tool`. -/
def stepNum : Step := ⟨"n", .tool, some "num_tool", none, none⟩

/-- A tool step calling `flag_tool`. -/
def stepFlag : Step := ⟨"f", .tool, some "flag_tool", none, none⟩

/-- A tool step whose `tool` field is the empty string. -/
def stepNoTool : Step := ⟨"b2", .tool, some "", none, none⟩

/-- A workflow whose second step has an empty `tool` field. -/
def wfNoTool : Workflow := ⟨none, [stepGood, stepNoTool]⟩

/-! Helper lemmas about the executor. -/

/-- A failing step leaves the loop state exactly as it was: the catch
block calls `process.exit(1)` without touching the context or the session
flag, so nothing is rolled back. -/
theorem execStep_exit_eq {env : RunEnv} {plugins : List Plugin} {st : LoopState}
    {step : Step} {evs : List Event} {st2 : LoopState}
    (h : execStep env plugins st step = (evs, st2, true)) : st2 = st := by
  unfold execStep at h
  split at h
  · have hb := congrArg (fun r => r.2.2) h
    simp at hb
  · split at h
    · have hb := congrArg (fun r => r.2.2) h
      simp at hb
    · have hb := congrArg (fun r => r.2.1) h
      simpa using hb.symm

/-- A failing `execStep` makes `runSteps` stop at once with the state
unchanged; the remaining steps are never consulted. -/
theorem runSteps_cons_exit {env : RunEnv} {plugins : List Plugin} {st st2 : LoopState}
    {step : Step} {evs2 : List Event} (rest : List Step)
    (h : execStep env plugins st step = (evs2, st2, true)) :
    runSteps env plugins st (step :: rest) = (evs2, st, true) := by
  have hst := execStep_exit_eq h
  subst hst
  simp [runSteps, h]

/-- A completing `execStep` makes `runSteps` continue with the remaining
steps from the updated state. -/
theorem runSteps_cons_ok {env : RunEnv} {plugins : List Plugin} {st st1 : LoopState}
    {step : Step} {evs : List Event} (rest : List Step)
    (h : execStep env plugins st step = (evs, st1, false)) :
    runSteps env plugins st (step :: rest) =
      (evs ++ (runSteps env plugins st1 rest).1,
        (runSteps env plugins st1 rest).2.1, (runSteps env plugins st1 rest).2.2) := by
  simp [runSteps, h]

/-- Running a list of steps that all complete, followed by more steps,
equals running the first list and continuing from its final state. -/
theorem runSteps_append_of_ok {env : RunEnv} {plugins : List Plugin} {st st1 : LoopState}
    {l1 : List Step} {evs1 : List Event} (l2 : List Step)
    (h1 : runSteps env plugins st l1 = (evs1, st1, false)) :
    runSteps env plugins st (l1 ++ l2) =
      (evs1 ++ (runSteps env plugins st1 l2).1,
        (runSteps env plugins st1 l2).2.1, (runSteps env plugins st1 l2).2.2) := by
  induction l1 generalizing st evs1 with
  | nil =>
      simp only [runSteps] at h1
      injection h1 with ha hb
      injection hb with hb1 hb2
      subst ha; subst hb1
      simp
  | cons s rest ih =>
      rw [List.cons_append]
      rcases hex : execStep env plugins st s with ⟨evsA, stA, exA⟩
      cases exA with
      | true =>
          rw [runSteps_cons_exit rest hex] at h1
          exact absurd (congrArg (fun r => r.2.2) h1) (by simp)
      | false =>
          rw [runSteps_cons_ok rest hex] at h1
          rw [runSteps_cons_ok (rest ++ l2) hex]
          rcases hrest : runSteps env plugins stA rest with ⟨evsB, stB, exB⟩
          rw [hrest] at h1
          have hevs := congrArg (fun r => r.1) h1
          have hst := congrArg (fun r => r.2.1) h1
          have hexB := congrArg (fun r => r.2.2) h1
          simp only at hevs hst hexB
          subst hst
          rw [ih (by rw [hrest, hexB])]
          rw [← hevs, List.append_assoc]

/-- C1. For every workflow and every step in it, if the dispatch of that
step throws (plugin rejection, AI-agent rejection, or tool resolution
failure at dispatch time — every failing `execStep`), the run terminates
immediately with a non-zero exit: the event trace ends with that step's
events, no later step contributes anything, and the context of the earlier
completed steps is reported as is, not rolled back. -/
theorem step_failure_terminates_run (env : RunEnv) (plugins : List Plugin)
    (wf : Workflow) (pre post : List Step) (step : Step)
    (evs1 evs2 : List Event) (st st2 : LoopState)
    (hsteps : wf.steps = pre ++ step :: post)
    (hvalid : validateTools plugins wf = .ok ())
    (hpre : runSteps env plugins initialState pre = (evs1, st, false))
    (hfail : execStep env plugins st step = (evs2, st2, true)) :
    runWorkflow env plugins wf = ⟨evs1 ++ evs2, st.context, .exitedNonZero⟩ := by
  unfold runWorkflow
  rw [hvalid]
  rw [hsteps, runSteps_append_of_ok (step :: post) hpre,
    runSteps_cons_exit post hfail]
  simp

/-- C1 witness: a three-step workflow whose middle tool call rejects stops
right there with exit status 1, keeping the first step's context entry. -/
theorem step_failure_terminates_run_witness :
    runWorkflow envPure [pluginT0, pluginBoom] wfFailMid =
      ⟨[.stepStarted "g", .toolCalled "g" "t0" [], .stepCompleted "g",
        .stepStarted "b", .toolCalled "b" "boom_tool" [], .stepFailed "b" "boom"],
       [("g", .vObj [("output", .vStr "done")])], .exitedNonZero⟩ :=
  step_failure_terminates_run envPure [pluginT0, pluginBoom] wfFailMid
    [stepGood] [stepAfter] stepBoom
    [.stepStarted "g", .toolCalled "g" "t0" [], .stepCompleted "g"]
    [.stepStarted "b", .toolCalled "b" "boom_tool" [], .stepFailed "b" "boom"]
    ⟨[("g", .vObj [("output", .vStr "done")])], true⟩
    ⟨[("g", .vObj [("output", .vStr "done")])], true⟩
    rfl rfl rfl rfl

/-- C2. A workflow containing a tool step with a non-empty tool name no
registered plugin provides fails validation before anything runs: the
report carries no events at all (so no step executed, not even ones
preceding the offending step) and the validation error message lists the
missing names and the available names; moreover every such unresolved name
appears in the missing list. -/
theorem missing_tools_fail_before_any_step (env : RunEnv) (plugins : List Plugin)
    (wf : Workflow) (avail : List (String × String))
    (havail : buildAvailableTools plugins = .ok avail)
    (hmiss : missingToolsOf avail wf.steps ≠ []) :
    runWorkflow env plugins wf =
      ⟨[], [], .validationFailed (missingMsg (missingToolsOf avail wf.steps) avail)⟩ ∧
    ∀ s ∈ wf.steps, ∀ t : String, s.type = .tool → s.tool = some t → t ≠ "" →
      avail.find? (fun q => q.1 == t) = none →
      t ∈ missingToolsOf avail wf.steps := by
  constructor
  · unfold runWorkflow validateTools
    rw [havail]
    have hempty : (missingToolsOf avail wf.steps).isEmpty = false := by
      cases hmm : missingToolsOf avail wf.steps with
      | nil => exact absurd hmm hmiss
      | cons a l => rfl
    simp [hempty]
  · intro s hs t hty htl hne hnone
    refine List.mem_filterMap.mpr ⟨s, hs, ?_⟩
    show (match s.type, s.tool with
          | .tool, some u =>
              if u != "" && (avail.find? (fun q => q.1 == u)).isNone then some u else none
          | _, _ => none) = some t
    rw [hty, htl]
    simp [hne, hnone]

/-- C2 witness: a registry providing only `t0` rejects a workflow whose
second step references `missing_tool`, producing no events at all. -/
theorem missing_tools_fail_before_any_step_witness :
    runWorkflow envPure [pluginT0] wfMissing =
      ⟨[], [],
        .validationFailed
          (missingMsg (missingToolsOf [("t0", "p0")] wfMissing.steps) [("t0", "p0")])⟩ :=
  (missing_tools_fail_before_any_step envPure [pluginT0] wfMissing [("t0", "p0")]
    rfl (by decide)).1

/-- C3 counterexample: registering two plugins that both declare the tool
`x` succeeds with no duplicate-tool error — `registerPlugin` performs no
duplicate check (the check happens later, in `validateTools`). -/
theorem registerPlugin_accepts_duplicate_tools :
    (registerPlugin [] pluginAlpha).bind (fun l => registerPlugin l pluginBeta) =
      .ok [pluginAlpha, pluginBeta] ∧
    pluginAlpha.toolNames = ["x"] ∧ pluginBeta.toolNames = ["x"] :=
  ⟨rfl, rfl, rfl⟩

/-- C3 amended. Registering two plugins that declare the same tool name
succeeds, and the collision is detected by the pre-run validation instead:
running any workflow against that registry fails before any step executes
(the report carries no events) with a duplicate-tool error naming both
plugins. -/
theorem duplicate_tool_fails_at_validation (p q : Plugin) (t : String)
    (env : RunEnv) (wf : Workflow)
    (hp : p.toolNames = [t]) (hq : q.toolNames = [t])
    (hpi : p.init = .ok ()) (hqi : q.init = .ok ()) :
    (registerPlugin [] p).bind (fun l => registerPlugin l q) = .ok [p, q] ∧
    runWorkflow env [p, q] wf = ⟨[], [], .validationFailed (dupMsg t p.name q.name)⟩ := by
  constructor
  · simp [registerPlugin, hpi, hqi, Except.bind]
  · simp [runWorkflow, validateTools, buildAvailableTools, buildAvailableToolsFrom,
      addPluginTools, hp, hq]

/-- C3 witness: the two colliding plugins `alpha` and `beta` register fine,
and any run then stops at validation naming both. -/
theorem duplicate_tool_fails_at_validation_witness :
    (registerPlugin [] pluginAlpha).bind (fun l => registerPlugin l pluginBeta) =
      .ok [pluginAlpha, pluginBeta] ∧
    runWorkflow envPure [pluginAlpha, pluginBeta] ⟨none, []⟩ =
      ⟨[], [], .validationFailed (dupMsg "x" "alpha" "beta")⟩ :=
  duplicate_tool_fails_at_validation pluginAlpha pluginBeta "x" envPure ⟨none, []⟩
    rfl rfl rfl rfl

/-- `agentDirectives` is a homomorphism for trace concatenation. -/
theorem agentDirectives_append (l1 l2 : List Event) :
    agentDirectives (l1 ++ l2) = agentDirectives l1 ++ agentDirectives l2 := by
  induction l1 with
  | nil => rfl
  | cons e rest ih =>
      cases e <;> simp [agentDirectives, ih]

/-- A successful dispatch either makes no agent call (and preserves the
session flag) or makes exactly one, passing the negation of the flag and
clearing it. -/
theorem dispatch_ok_directives {env : RunEnv} {plugins : List Plugin} {st : LoopState}
    {step : Step} {evs : List Event} {st2 : LoopState}
    (h : dispatch env plugins st step = .ok (evs, st2)) :
    (agentDirectives evs = [] ∧ st2.isFirstAiAgentStep = st.isFirstAiAgentStep) ∨
    (agentDirectives evs = [!st.isFirstAiAgentStep] ∧ st2.isFirstAiAgentStep = false) := by
  unfold dispatch at h
  split at h
  · split at h
    · exact Except.noConfusion h
    · split at h
      · exact Except.noConfusion h
      · split at h
        · exact Except.noConfusion h
        · injection h with h1
          injection h1 with ha hb
          subst ha; subst hb
          right
          exact ⟨rfl, rfl⟩
  · split at h
    · exact Except.noConfusion h
    · split at h
      · exact Except.noConfusion h
      · split at h
        · exact Except.noConfusion h
        · split at h
          · exact Except.noConfusion h
          · injection h with h1
            injection h1 with ha hb
            subst ha; subst hb
            left
            exact ⟨rfl, rfl⟩

/-- A failing dispatch emitted at most one agent call, with the negation
of the session flag as directive. -/
theorem dispatch_error_directives {env : RunEnv} {plugins : List Plugin} {st : LoopState}
    {step : Step} {evs : List Event} {msg : String}
    (h : dispatch env plugins st step = .error (evs, msg)) :
    agentDirectives evs = [] ∨ agentDirectives evs = [!st.isFirstAiAgentStep] := by
  unfold dispatch at h
  split at h
  · split at h
    · injection h with h1
      injection h1 with ha hb
      subst ha
      left; rfl
    · split at h
      · injection h with h1
        injection h1 with ha hb
        subst ha
        left; rfl
      · split at h
        · injection h with h1
          injection h1 with ha hb
          subst ha
          right; rfl
        · exact Except.noConfusion h
  · split at h
    · injection h with h1
      injection h1 with ha hb
      subst ha
      left; rfl
    · split at h
      · injection h with h1
        injection h1 with ha hb
        subst ha
        left; rfl
      · split at h
        · injection h with h1
          injection h1 with ha hb
          subst ha
          left; rfl
        · split at h
          · injection h with h1
            injection h1 with ha hb
            subst ha
            left; rfl
          · exact Except.noConfusion h

/-- One executed step either makes no agent call (skip, tool path, or an
error before the call; flag preserved when the step completes) or exactly
one, with the negated flag as directive, clearing the flag on completion. -/
theorem execStep_directives {env : RunEnv} {plugins : List Plugin} {st : LoopState}
    {step : Step} {evs : List Event} {st2 : LoopState} {ex : Bool}
    (h : execStep env plugins st step = (evs, st2, ex)) :
    (agentDirectives evs = [] ∧ st2.isFirstAiAgentStep = st.isFirstAiAgentStep) ∨
    (agentDirectives evs = [!st.isFirstAiAgentStep] ∧
      (ex = false → st2.isFirstAiAgentStep = false)) := by
  unfold execStep at h
  split at h
  · injection h with h1 h2
    injection h2 with h2a h2b
    subst h1; subst h2a
    left
    exact ⟨rfl, rfl⟩
  · split at h
    case _ evs0 st0 heq =>
      injection h with h1 h2
      injection h2 with h2a h2b
      subst h1; subst h2a
      rcases dispatch_ok_directives heq with ⟨hd, hf⟩ | ⟨hd, hf⟩
      · left
        constructor
        · simpa [agentDirectives, agentDirectives_append] using hd
        · exact hf
      · right
        constructor
        · simpa [agentDirectives, agentDirectives_append] using hd
        · intro _; exact hf
    case _ evs0 msg heq =>
      injection h with h1 h2
      injection h2 with h2a h2b
      subst h1; subst h2a
      rcases dispatch_error_directives heq with hd | hd
      · left
        exact ⟨by simpa [agentDirectives, agentDirectives_append] using hd, rfl⟩
      · right
        constructor
        · simpa [agentDirectives, agentDirectives_append] using hd
        · intro hc
          exact absurd (hc ▸ h2b) (by simp)

/-- Invariant of the loop: starting with the session flag set, the
directives of the whole trace are `false` then only `true`; starting with
it cleared, they are all `true`. -/
theorem runSteps_directives {env : RunEnv} {plugins : List Plugin} {steps : List Step} :
    ∀ {st : LoopState} {evs : List Event} {st2 : LoopState} {ex : Bool},
    runSteps env plugins st steps = (evs, st2, ex) →
    agentDirectives evs =
      (if st.isFirstAiAgentStep then falseThenTrues (agentDirectives evs).length
       else List.replicate (agentDirectives evs).length true) := by
  induction steps with
  | nil =>
      intro st evs st2 ex h
      simp only [runSteps] at h
      injection h with ha hb
      subst ha
      cases st.isFirstAiAgentStep <;> simp [agentDirectives, falseThenTrues]
  | cons s rest ih =>
      intro st evs st2 ex h
      rcases hex : execStep env plugins st s with ⟨evsA, stA, exA⟩
      cases exA with
      | true =>
          rw [runSteps_cons_exit rest hex] at h
          have hevs := congrArg (fun r => r.1) h
          simp only at hevs
          subst hevs
          rcases execStep_directives hex with ⟨hd, _⟩ | ⟨hd, _⟩
          · rw [hd]
            cases st.isFirstAiAgentStep <;> simp [falseThenTrues]
          · rw [hd]
            cases st.isFirstAiAgentStep <;> simp [falseThenTrues]
      | false =>
          rw [runSteps_cons_ok rest hex] at h
          rcases hrest : runSteps env plugins stA rest with ⟨evsB, stB, exB⟩
          rw [hrest] at h
          have hevs := congrArg (fun r => r.1) h
          simp only at hevs
          subst hevs
          have ihb := ih hrest
          rcases execStep_directives hex with ⟨hdA, hflag⟩ | ⟨hdA, hflag⟩
          · rw [agentDirectives_append, hdA, List.nil_append]
            rw [hflag] at ihb
            exact ihb
          · have hA : stA.isFirstAiAgentStep = false := hflag rfl
            rw [agentDirectives_append, hdA]
            rw [hA] at ihb
            simp only [Bool.false_eq_true, if_false] at ihb
            have hft : ∀ n, falseThenTrues (n + 1) = false :: List.replicate n true :=
              fun n => rfl
            cases hst : st.isFirstAiAgentStep
            · simp only [Bool.not_false, List.singleton_append, Bool.false_eq_true,
                if_false, List.length_cons]
              rw [List.replicate_succ, ← ihb]
            · simp only [Bool.not_true, List.singleton_append, List.length_cons,
                eq_self_iff_true, if_true]
              rw [hft, ← ihb]

/-- C4. Over any run started in the initial state, the "continue previous
session" directives passed to the AI-agent collaborator form the list
`false, true, true, ...`: `false` for the first executed AI-agent step and
`true` for every later one — tool steps and skipped steps never affect the
flag, and once cleared it never comes back. -/
theorem session_directives_false_then_true (env : RunEnv) (plugins : List Plugin)
    (steps : List Step) (evs : List Event) (st2 : LoopState) (ex : Bool)
    (h : runSteps env plugins initialState steps = (evs, st2, ex)) :
    agentDirectives evs = falseThenTrues (agentDirectives evs).length := by
  have hinv := runSteps_directives h
  simpa [initialState] using hinv

/-- C4 witness: three consecutive AI-agent steps receive the directives
`false, true, true`. -/
theorem session_directives_false_then_true_witness :
    agentDirectives (runSteps envPure [] initialState stepsAgent3).1 =
      falseThenTrues (agentDirectives (runSteps envPure [] initialState stepsAgent3).1).length ∧
    agentDirectives (runSteps envPure [] initialState stepsAgent3).1 = [false, true, true] :=
  ⟨session_directives_false_then_true envPure [] stepsAgent3 _ _ _ rfl, rfl⟩

/-- Path characters are never whitespace: the two character classes of the
placeholder pattern are disjoint. -/
theorem pathChar_not_space (c : Char) (h : isPathChar c = true) : isJsSpace c = false := by
  by_contra hns
  rw [Bool.not_eq_false] at hns
  unfold isJsSpace at hns
  simp only [Bool.or_eq_true, decide_eq_true_eq] at hns
  rcases hns with ((((h1 | h1) | h1) | h1) | h1) | h1 <;> subst h1 <;>
    exact absurd h (by decide)

/-- Scanning a run of path characters followed by a closing brace takes
exactly the run. -/
theorem scan_path_run (r : List Char) :
    ∀ l : List Char, (∀ c ∈ l, isPathChar c = true) →
      (l ++ '}' :: r).takeWhile isPathChar = l ∧
      (l ++ '}' :: r).dropWhile isPathChar = '}' :: r := by
  intro l
  induction l with
  | nil =>
      intro _
      have h0 : isPathChar '}' = false := by decide
      constructor <;> simp [List.takeWhile_cons, List.dropWhile_cons, h0]
  | cons c cs ih =>
      intro hall
      have hc : isPathChar c = true := hall c (List.mem_cons_self c cs)
      have ihh := ih (fun x hx => hall x (List.mem_cons_of_mem _ hx))
      constructor <;>
        simp [List.takeWhile_cons, List.dropWhile_cons, hc, ihh.1, ihh.2]

/-- On the template that is exactly one placeholder around a well-formed
path, the scanner matches the whole input and captures the path. -/
theorem matchPlaceholder_exact (p : String) (hp : isPathString p = true) :
    matchPlaceholder ('{' :: '{' :: (p.data ++ ['}', '}'])) = some (p, []) := by
  obtain ⟨l⟩ := p
  simp only [isPathString] at hp
  rw [Bool.and_eq_true] at hp
  obtain ⟨hne, hall⟩ := hp
  have hmem : ∀ c ∈ l, isPathChar c = true := List.all_eq_true.mp hall
  cases l with
  | nil => simp at hne
  | cons c cs =>
      have hc : isPathChar c = true := hmem c (List.mem_cons_self c cs)
      have hcspace : isJsSpace c = false := pathChar_not_space c hc
      simp only [matchPlaceholder]
      have h1 : ((c :: cs) ++ '}' :: ['}']).dropWhile isJsSpace =
          (c :: cs) ++ '}' :: ['}'] := by
        simp [List.cons_append, List.dropWhile_cons, hcspace]
      have h2 := scan_path_run ['}'] (c :: cs) hmem
      have h3 : (['}', '}'] : List Char).dropWhile isJsSpace = ['}', '}'] := by decide
      rw [show (c :: cs) ++ ['}', '}'] = (c :: cs) ++ '}' :: ['}'] from rfl, h1,
        h2.1, h2.2]
      simp [h3]

/-- In any fuel-bounded scan, the empty input yields the empty output. -/
theorem interpolateAux_nil (ctx : JValue) : ∀ fuel, interpolateAux ctx fuel [] = [] := by
  intro fuel
  cases fuel <;> rfl

/-- Interpolating the template that is exactly one placeholder around a
well-formed path renders the resolved path (and nothing else). -/
theorem interpolate_single_placeholder (ctx : JValue) (p : String)
    (hp : isPathString p = true) :
    interpolate ("\x7b\x7b" ++ p ++ "\x7d\x7d") ctx = renderPath ctx p := by
  obtain ⟨l⟩ := p
  calc interpolate ("\x7b\x7b" ++ String.mk l ++ "\x7d\x7d") ctx
      = String.mk
          (match matchPlaceholder ('{' :: '{' :: (l ++ ['}', '}'])) with
           | some (q, rest) =>
               (renderPath ctx q).data ++
                 interpolateAux ctx ((l ++ ['}', '}']).length + 1) rest
           | none =>
               '{' :: interpolateAux ctx ((l ++ ['}', '}']).length + 1)
                 ('{' :: (l ++ ['}', '}']))) := rfl
    _ = String.mk ((renderPath ctx (String.mk l)).data ++
          interpolateAux ctx ((l ++ ['}', '}']).length + 1) []) := by
          rw [matchPlaceholder_exact (String.mk l) hp]
    _ = renderPath ctx (String.mk l) := by
          rw [interpolateAux_nil, List.append_nil]

/-- C5. For every context and every well-formed dotted path whose walk
through the context reaches an absent value, interpolating the template
that is just that placeholder yields the empty string (silently, with no
error). -/
theorem interpolate_absent_path (ctx : JValue) (p : String)
    (hp : isPathString p = true) (habsent : resolvePath ctx p = none) :
    interpolate ("\x7b\x7b" ++ p ++ "\x7d\x7d") ctx = "" := by
  rw [interpolate_single_placeholder ctx p hp]
  unfold renderPath
  rw [habsent]

/-- C5 witness: `B.output.has_issues` is absent when `B`'s entry has a
plain-string `output`, and the placeholder resolves to the empty string. -/
theorem interpolate_absent_path_witness :
    interpolate ("\x7b\x7b" ++ "B.output.has_issues" ++ "\x7d\x7d") (.vObj ctxB) = "" :=
  interpolate_absent_path (.vObj ctxB) "B.output.has_issues" (by decide) rfl

/-- Dispatch never reads the `if` field. -/
theorem dispatch_ignores_if (env : RunEnv) (plugins : List Plugin) (st : LoopState)
    (step : Step) :
    dispatch env plugins st { step with stepIf := none } = dispatch env plugins st step := by
  obtain ⟨sid, sty, stool, sargs, sif⟩ := step
  rfl

/-- A step with no `if` field is never skipped. -/
theorem shouldSkip_none (ctx : List (String × JValue)) (step : Step) :
    shouldSkip ctx { step with stepIf := none } = false := by
  obtain ⟨sid, sty, stool, sargs, sif⟩ := step
  rfl

/-- C6 amended. For every step carrying a NON-EMPTY `if` field: when
interpolating it yields the empty string or the literal `"false"`, the
step is skipped — no dispatch, no context entry, and the run continues
with the next step; otherwise the step behaves exactly as if it had no
`if` field at all.  (A step whose `if` field is the empty string is not
checked and always runs; see the counterexample.) -/
theorem step_if_condition (env : RunEnv) (plugins : List Plugin) (st : LoopState)
    (step : Step) (c : String) (rest : List Step)
    (hif : step.stepIf = some c) (hne : c ≠ "") :
    ((interpolate c (.vObj st.context) = "" ∨ interpolate c (.vObj st.context) = "false") →
      execStep env plugins st step =
        ([.stepStarted step.id, .stepSkipped step.id], st, false) ∧
      runSteps env plugins st (step :: rest) =
        ([.stepStarted step.id, .stepSkipped step.id] ++ (runSteps env plugins st rest).1,
          (runSteps env plugins st rest).2.1, (runSteps env plugins st rest).2.2)) ∧
    ((interpolate c (.vObj st.context) ≠ "" ∧ interpolate c (.vObj st.context) ≠ "false") →
      execStep env plugins st step = execStep env plugins st { step with stepIf := none }) := by
  constructor
  · intro hcond
    have hskip : shouldSkip st.context step = true := by
      unfold shouldSkip
      rw [hif]
      show (if c = "" then false
            else ((interpolate c (.vObj st.context) == "") ||
              (interpolate c (.vObj st.context) == "false"))) = true
      rw [if_neg hne]
      rcases hcond with h | h <;> simp [h]
    have hexec : execStep env plugins st step =
        ([.stepStarted step.id, .stepSkipped step.id], st, false) := by
      unfold execStep
      rw [hskip]
      simp
    exact ⟨hexec, by rw [runSteps_cons_ok rest hexec]⟩
  · intro hcond
    obtain ⟨h1, h2⟩ := hcond
    have hskip : shouldSkip st.context step = false := by
      unfold shouldSkip
      rw [hif]
      show (if c = "" then false
            else ((interpolate c (.vObj st.context) == "") ||
              (interpolate c (.vObj st.context) == "false"))) = false
      rw [if_neg hne]
      simp [h1, h2]
    unfold execStep
    rw [hskip, shouldSkip_none]
    simp only [Bool.false_eq_true, if_false]
    rw [dispatch_ignores_if]

/-- C6 counterexample: a step whose `if` field is the EMPTY string
interpolates to the empty string, yet the executor dispatches it (writing
its context entry) instead of skipping it, because `if (step.if)` is falsy
for the empty string and the check never runs. -/
theorem empty_if_step_is_executed_not_skipped :
    interpolate "" (.vObj ([] : List (String × JValue))) = "" ∧
    stepEmptyIf.stepIf = some "" ∧
    execStep envPure [pluginT0] initialState stepEmptyIf =
      ([.stepStarted "s", .toolCalled "s" "t0" [], .stepCompleted "s"],
       ⟨[("s", .vObj [("output", .vStr "done")])], true⟩, false) :=
  ⟨rfl, rfl, rfl⟩

/-- C6 witness: a condition referencing the absent `B.output.has_issues`
path causes the guarded step to be skipped, with no context entry. -/
theorem step_if_condition_witness :
    execStep envPure [pluginT0] stCtxB stepCondC =
      ([.stepStarted "C", .stepSkipped "C"], stCtxB, false) :=
  (((step_if_condition envPure [pluginT0] stCtxB stepCondC
      "\x7b\x7bB.output.has_issues\x7d\x7d" [] rfl (by decide)).1) (Or.inl rfl)).1

/-- The shape of one executed AI-agent step: the full prompt is written to
the temp file, the agent is invoked with the truncated prompt and the
resolved working directory, and the step completes (writing the agent
output to the context and clearing the session flag) or fails (exiting
with the state untouched) according to the agent's answer. -/
theorem execStep_agent (env : RunEnv) (plugins : List Plugin) (st : LoopState)
    (step : Step) (P W : String)
    (htype : step.type = .ai_agent)
    (hskip : shouldSkip st.context step = false)
    (hP : jsStringOrDefault (argValue (interpolateArgs st.context step.args) "prompt") ""
        = .ok P)
    (hW : jsStringOrDefault (argValue (interpolateArgs st.context step.args) "working_dir") "."
        = .ok W) :
    execStep env plugins st step =
      (match env.agent (agentCallOf env st step P W) with
       | .ok r =>
          ([Event.stepStarted step.id] ++ agentEvents env st step P W ++
            [Event.stepCompleted step.id],
           ⟨ctxSet st.context step.id (.vObj [("output", .vStr r.output)]), false⟩, false)
       | .error e =>
          ([Event.stepStarted step.id] ++ agentEvents env st step P W ++
            [Event.stepFailed step.id e],
           st, true)) := by
  unfold execStep
  rw [hskip]
  simp only [Bool.false_eq_true, if_false]
  unfold dispatch
  simp only [htype, hP, hW]
  cases hag : env.agent (agentCallOf env st step P W) with
  | ok r => simp [hag]
  | error e => simp [hag]

/-- `substring(0, n)` of a string within budget is the string itself. -/
theorem strTake_of_le (s : String) (n : Nat) (h : s.length ≤ n) : strTake s n = s := by
  unfold strTake
  rw [List.take_of_length_le h]

/-- C7 amended. For every executed AI-agent step whose interpolated prompt
is `P`: the submitted prompt is `P` itself when `P` fits the fixed budget
and the budget-sized prefix plus the fixed truncation notice (naming the
persisted prompt file) when it does not; the full prompt `P` is always
written, in full, to the file `os.tmpdir()/prompt_<id>_<now>.txt` — a
location outside the agent's working directory except when the working
directory contains the temp directory (see the counterexample). -/
theorem ai_agent_prompt_management (env : RunEnv) (plugins : List Plugin)
    (st : LoopState) (step : Step) (P W : String)
    (htype : step.type = .ai_agent)
    (hskip : shouldSkip st.context step = false)
    (hP : jsStringOrDefault (argValue (interpolateArgs st.context step.args) "prompt") ""
        = .ok P)
    (hW : jsStringOrDefault (argValue (interpolateArgs st.context step.args) "working_dir") "."
        = .ok W) :
    (P.length ≤ MAX_CHARS → (agentCallOf env st step P W).prompt = P) ∧
    (P.length > MAX_CHARS →
      (agentCallOf env st step P W).prompt =
        strTake P MAX_CHARS ++ truncationNotice (promptFilePath env step.id)) ∧
    execStep env plugins st step =
      (match env.agent (agentCallOf env st step P W) with
       | .ok r =>
          ([Event.stepStarted step.id,
            Event.fileWritten (promptFilePath env step.id) P,
            Event.agentCalled step.id (agentCallOf env st step P W),
            Event.stepCompleted step.id],
           ⟨ctxSet st.context step.id (.vObj [("output", .vStr r.output)]), false⟩, false)
       | .error e =>
          ([Event.stepStarted step.id,
            Event.fileWritten (promptFilePath env step.id) P,
            Event.agentCalled step.id (agentCallOf env st step P W),
            Event.stepFailed step.id e],
           st, true)) := by
  refine ⟨?_, ?_, ?_⟩
  · intro hle
    show truncatePrompt P (promptFilePath env step.id) = P
    unfold truncatePrompt
    rw [if_neg (by omega), strTake_of_le P MAX_CHARS hle]
  · intro hgt
    show truncatePrompt P (promptFilePath env step.id) =
      strTake P MAX_CHARS ++ truncationNotice (promptFilePath env step.id)
    unfold truncatePrompt
    rw [if_pos hgt]
  · rw [execStep_agent env plugins st step P W htype hskip hP hW]
    cases env.agent (agentCallOf env st step P W) <;>
      simp [agentEvents]

/-- C7 witness: an executed AI-agent step with the five-character prompt
`hello` submits it unmodified and still writes it to the temp file. -/
theorem ai_agent_prompt_management_witness :
    (agentCallOf envPure initialState stepHello "hello" ".").prompt = "hello" ∧
    execStep envPure [] initialState stepHello =
      ([.stepStarted "A", .fileWritten "/tmp/prompt_A_0.txt" "hello",
        .agentCalled "A" ⟨"hello", "/cwd", false⟩, .stepCompleted "A"],
       ⟨[("A", .vObj [("output", .vStr "ok")])], false⟩, false) := by
  have h := ai_agent_prompt_management envPure [] initialState stepHello "hello" "."
    rfl rfl rfl rfl
  refine ⟨h.1 (by decide), ?_⟩
  rw [h.2.2]
  rfl

/-- C7 counterexample: with the working directory set to the OS temp
directory itself, the persisted full-prompt file lies INSIDE the agent's
working directory, not outside it. -/
theorem prompt_file_inside_working_directory :
    runWorkflow envTmp [] wfTmpWorkdir =
      ⟨[.stepStarted "A", .fileWritten "/tmp/prompt_A_0.txt" "hello",
        .agentCalled "A" ⟨"hello", "/tmp", false⟩, .stepCompleted "A"],
       [("A", .vObj [("output", .vStr "done")])], .completed⟩ ∧
    pathIsInside "/tmp" "/tmp/prompt_A_0.txt" = true :=
  ⟨rfl, by decide⟩

/-- The shape of one executed tool step whose plugin call resolves: the
tool is called with the interpolated arguments, the step completes, and
the joined-then-parsed output is written under the step's id. -/
theorem execStep_tool_ok (env : RunEnv) (plugins : List Plugin) (st : LoopState)
    (step : Step) (t : String) (plugin : Plugin) (r : CallToolResult)
    (htype : step.type = .tool)
    (hskip : shouldSkip st.context step = false)
    (htool : step.tool = some t) (hne : t ≠ "")
    (hfind : plugins.find? (fun p => p.toolNames.contains t) = some plugin)
    (hcall : plugin.handle t (interpolateArgs st.context step.args) = .ok r) :
    execStep env plugins st step =
      ([.stepStarted step.id, .toolCalled step.id t (interpolateArgs st.context step.args),
        .stepCompleted step.id],
       ⟨ctxSet st.context step.id (.vObj [("output", toolOutputData env r)]),
        st.isFirstAiAgentStep⟩, false) := by
  unfold execStep
  rw [hskip]
  simp only [Bool.false_eq_true, if_false]
  unfold dispatch
  simp only [htype, htool]
  rw [if_neg hne]
  simp only [hfind, hcall]
  simp

/-- C8. For every executed tool step whose plugin call resolves, the value
stored at `context[step.id].output` is the result of joining the text of
all content segments with newlines and then JSON-parsing the joined
string: the parsed value when parsing succeeds, the raw joined string
otherwise. -/
theorem tool_step_output_written (env : RunEnv) (plugins : List Plugin) (st : LoopState)
    (step : Step) (t : String) (plugin : Plugin) (r : CallToolResult)
    (htype : step.type = .tool)
    (hskip : shouldSkip st.context step = false)
    (htool : step.tool = some t) (hne : t ≠ "")
    (hfind : plugins.find? (fun p => p.toolNames.contains t) = some plugin)
    (hcall : plugin.handle t (interpolateArgs st.context step.args) = .ok r) :
    execStep env plugins st step =
      ([.stepStarted step.id, .toolCalled step.id t (interpolateArgs st.context step.args),
        .stepCompleted step.id],
       ⟨ctxSet st.context step.id (.vObj [("output",
          match env.jsonParse (String.intercalate "\n" (r.content.map (fun c => c.text))) with
          | some v => v
          | none => .vStr (String.intercalate "\n" (r.content.map (fun c => c.text))))]),
        st.isFirstAiAgentStep⟩, false) :=
  execStep_tool_ok env plugins st step t plugin r htype hskip htool hne hfind hcall

/-- C8 witness: a tool answering the text `42` under a JSON parser that
parses it stores the structured number 42, not the raw string. -/
theorem tool_step_output_written_witness :
    execStep envParse42 [pluginNum] initialState stepNum =
      ([.stepStarted "n", .toolCalled "n" "num_tool" [], .stepCompleted "n"],
       ⟨[("n", .vObj [("output", .vNum 42)])], true⟩, false) :=
  tool_step_output_written envParse42 [pluginNum] initialState stepNum
    "num_tool" pluginNum ⟨[⟨"42"⟩], false⟩ rfl rfl rfl (by decide) rfl rfl

/-- C9. A tool step whose `handleToolCall` RESOLVES with `isError: true`
is treated as a success: the result text is written to the context exactly
as for a successful call, the step completes (exit flag false), and the
run continues with the remaining steps — only a rejection aborts. -/
theorem tool_isError_result_still_succeeds (env : RunEnv) (plugins : List Plugin)
    (st : LoopState) (step : Step) (t : String) (plugin : Plugin) (r : CallToolResult)
    (rest : List Step)
    (htype : step.type = .tool)
    (hskip : shouldSkip st.context step = false)
    (htool : step.tool = some t) (hne : t ≠ "")
    (hfind : plugins.find? (fun p => p.toolNames.contains t) = some plugin)
    (hcall : plugin.handle t (interpolateArgs st.context step.args) = .ok r)
    (herr : r.isError = true) :
    execStep env plugins st step =
      ([.stepStarted step.id, .toolCalled step.id t (interpolateArgs st.context step.args),
        .stepCompleted step.id],
       ⟨ctxSet st.context step.id (.vObj [("output", toolOutputData env r)]),
        st.isFirstAiAgentStep⟩, false) ∧
    runSteps env plugins st (step :: rest) =
      ([.stepStarted step.id, .toolCalled step.id t (interpolateArgs st.context step.args),
        .stepCompleted step.id] ++
          (runSteps env plugins
            ⟨ctxSet st.context step.id (.vObj [("output", toolOutputData env r)]),
              st.isFirstAiAgentStep⟩ rest).1,
        (runSteps env plugins
          ⟨ctxSet st.context step.id (.vObj [("output", toolOutputData env r)]),
            st.isFirstAiAgentStep⟩ rest).2.1,
        (runSteps env plugins
          ⟨ctxSet st.context step.id (.vObj [("output", toolOutputData env r)]),
            st.isFirstAiAgentStep⟩ rest).2.2) := by
  have h := execStep_tool_ok env plugins st step t plugin r htype hskip htool hne hfind hcall
  exact ⟨h, runSteps_cons_ok rest h⟩

/-- C9 witness: a tool resolving with `isError: true` still completes and
its text lands in the context. -/
theorem tool_isError_result_still_succeeds_witness :
    execStep envPure [pluginFlag] initialState stepFlag =
      ([.stepStarted "f", .toolCalled "f" "flag_tool" [], .stepCompleted "f"],
       ⟨[("f", .vObj [("output", .vStr "went wrong")])], true⟩, false) :=
  (tool_isError_result_still_succeeds envPure [pluginFlag] initialState stepFlag
    "flag_tool" pluginFlag ⟨[⟨"went wrong"⟩], true⟩ []
    rfl rfl rfl (by decide) rfl rfl rfl).1

/-- C10. A tool step whose `tool` field is missing or empty is excluded
from the pre-execution missing-tool scan (validation does not reject it);
the steps before it run normally, and the run aborts only when that step
itself is dispatched, failing with the error `Tool name missing`. -/
theorem empty_tool_name_fails_at_dispatch (env : RunEnv) (plugins : List Plugin)
    (wf : Workflow) (pre post : List Step) (step : Step) (st : LoopState)
    (evs1 : List Event)
    (htype : step.type = .tool)
    (htool : step.tool = none ∨ step.tool = some "")
    (hsteps : wf.steps = pre ++ step :: post)
    (hvalid : validateTools plugins wf = .ok ())
    (hpre : runSteps env plugins initialState pre = (evs1, st, false))
    (hnoskip : shouldSkip st.context step = false) :
    (∀ avail : List (String × String),
      missingToolsOf avail wf.steps = missingToolsOf avail (pre ++ post)) ∧
    runWorkflow env plugins wf =
      ⟨evs1 ++ [.stepStarted step.id, .stepFailed step.id "Tool name missing"],
        st.context, .exitedNonZero⟩ := by
  constructor
  · intro avail
    have hstep_none :
        (match step.type, step.tool with
         | StepType.tool, some u =>
             if u != "" && (avail.find? (fun q => q.1 == u)).isNone then some u else none
         | _, _ => none) = none := by
      rcases htool with h | h <;> rw [htype, h] <;> simp
    rw [hsteps]
    unfold missingToolsOf
    rw [List.filterMap_append, List.filterMap_append, List.filterMap_cons_none]
    exact hstep_none
  · have hexec : execStep env plugins st step =
        ([.stepStarted step.id, .stepFailed step.id "Tool name missing"], st, true) := by
      unfold execStep
      rw [hnoskip]
      simp only [Bool.false_eq_true, if_false]
      unfold dispatch
      rcases htool with h | h <;> simp [htype, h]
    unfold runWorkflow
    rw [hvalid, hsteps, runSteps_append_of_ok (step :: post) hpre,
      runSteps_cons_exit post hexec]
    simp

/-- C10 witness: a two-step workflow whose second step has an empty `tool`
field passes validation, runs the first step, then aborts at the second
with `Tool name missing`. -/
theorem empty_tool_name_fails_at_dispatch_witness :
    runWorkflow envPure [pluginT0] wfNoTool =
      ⟨[.stepStarted "g", .toolCalled "g" "t0" [], .stepCompleted "g",
        .stepStarted "b2", .stepFailed "b2" "Tool name missing"],
       [("g", .vObj [("output", .vStr "done")])], .exitedNonZero⟩ :=
  (empty_tool_name_fails_at_dispatch envPure [pluginT0] wfNoTool [stepGood] [] stepNoTool
    ⟨[("g", .vObj [("output", .vStr "done")])], true⟩
    [.stepStarted "g", .toolCalled "g" "t0" [], .stepCompleted "g"]
    rfl (Or.inr rfl) rfl rfl rfl rfl).2

end AgentRunner
